import Mathlib

/-!
# Verification of `jlaswell/logging`

A shallow embedding of the Go package `logging` (files `logger.go`,
`stdout.go`, `nil.go`) together with the small part of the Go standard
library (`errors`, `fmt`, `strings`, `log`) that the package calls.

Conventions of the embedding

* A Go `string` is a Lean `String`; a variadic `...string` is a `List String`.
* `Level` is Go's `int`; no arithmetic is performed on it, so it is an `Int`.
* A Go `error` is `Option GoError`: `none` is the `nil` error.
* Effectful code is written in state-passing style over a world type `σ`:
  a method returning `error` becomes `σ → Option GoError × σ`.
* The interface `Logger` is the record of its nine methods.
-/

namespace logging

/-! ## Standard library pieces -/

/-- An error value of package `errors`: the text it was created with. -/
structure GoError where
  msg : String
  deriving DecidableEq, Repr

/-- The call `errors.New(text)`. -/
def errors_New (text : String) : GoError := ⟨text⟩

/-- The call `strings.Join(elems, sep)`. -/
def strings_Join : List String → String → String
  | [], _ => ""
  | [a], _ => a
  | a :: b :: rest, sep => a ++ sep ++ strings_Join (b :: rest) sep

/-! ## `logger.go`: severity constants -/

/-- The type `Level` of `logger.go`. -/
abbrev Level := Int

def Emergency : Level := 0
def Alert : Level := 1
def Critical : Level := 2
def Error : Level := 3
def Warning : Level := 4
def Notice : Level := 5
def Informational : Level := 6
def Debug : Level := 7

/-- The error built in the `default` branch of `stringifyLevel`. -/
def UndefinedLevel : GoError := errors_New "Undefined log level"

/-- The function `stringifyLevel` of `logger.go`: the name and the error. -/
def stringifyLevel (l : Level) : String × Option GoError :=
  if l = Emergency then ("Emergency", none)
  else if l = Alert then ("Alert", none)
  else if l = Critical then ("Critical", none)
  else if l = Error then ("Error", none)
  else if l = Warning then ("Warning", none)
  else if l = Notice then ("Notice", none)
  else if l = Informational then ("Informational", none)
  else if l = Debug then ("Debug", none)
  else ("", some (errors_New "Undefined log level"))

/-- The loop of `formatMsg`: each context string is joined onto the content. -/
def formatLoop : List String → String → String
  | [], content => content
  | extra :: rest, content => formatLoop rest (strings_Join [content, extra] ", ")

/-- The function `formatMsg` of `logger.go`; `fmt.Sprintf("[%s] %s", l, msg)`
is the concatenation `"[" ++ l ++ "] " ++ msg`. -/
def formatMsg (level : Level) (msg : String) (context : List String) :
    String × Option GoError :=
  match stringifyLevel level with
  | (_, some err) => ("", some err)
  | (l, none) => (formatLoop context ("[" ++ l ++ "] " ++ msg), none)

/-! ## The interface `Logger` -/

/-- A method of the interface with the level fixed:
`func(msg string, context ...string) error`. -/
abbrev LogFunc (σ : Type) := String → List String → σ → Option GoError × σ

/-- The interface `Logger` of `logger.go`: a value of the interface is the
record of its nine methods. -/
structure Logger (σ : Type) where
  Emergency : LogFunc σ
  Alert : LogFunc σ
  Critical : LogFunc σ
  Error : LogFunc σ
  Warning : LogFunc σ
  Notice : LogFunc σ
  Informational : LogFunc σ
  Debug : LogFunc σ
  Log : Level → LogFunc σ

/-! ## `nil.go`: the sink that does nothing -/

/-- The method `(*NilLogger).Log`. -/
def NilLogger.Log {σ : Type} (_level : Level) (_msg : String) (_context : List String)
    (w : σ) : Option GoError × σ :=
  (none, w)

def NilLogger.Emergency {σ : Type} (msg : String) (context : List String) (w : σ) :=
  NilLogger.Log logging.Emergency msg context w
def NilLogger.Alert {σ : Type} (msg : String) (context : List String) (w : σ) :=
  NilLogger.Log logging.Alert msg context w
def NilLogger.Critical {σ : Type} (msg : String) (context : List String) (w : σ) :=
  NilLogger.Log logging.Critical msg context w
def NilLogger.Error {σ : Type} (msg : String) (context : List String) (w : σ) :=
  NilLogger.Log logging.Error msg context w
def NilLogger.Warning {σ : Type} (msg : String) (context : List String) (w : σ) :=
  NilLogger.Log logging.Warning msg context w
def NilLogger.Notice {σ : Type} (msg : String) (context : List String) (w : σ) :=
  NilLogger.Log logging.Notice msg context w
def NilLogger.Informational {σ : Type} (msg : String) (context : List String) (w : σ) :=
  NilLogger.Log logging.Informational msg context w
def NilLogger.Debug {σ : Type} (msg : String) (context : List String) (w : σ) :=
  NilLogger.Log logging.Debug msg context w

/-- The constructor `NewNilLogger`, seen through the interface. -/
def NewNilLogger {σ : Type} : Logger σ where
  Emergency := NilLogger.Emergency
  Alert := NilLogger.Alert
  Critical := NilLogger.Critical
  Error := NilLogger.Error
  Warning := NilLogger.Warning
  Notice := NilLogger.Notice
  Informational := NilLogger.Informational
  Debug := NilLogger.Debug
  Log := NilLogger.Log

/-! ## Package `log` and the process environment -/

/-- An `io.Writer`: `Write` reports an error and changes the world. -/
structure Writer (σ : Type) where
  Write : String → σ → Option GoError × σ

/-- What the package reads from its process: the stream `os.Stdout`, and the
text that package `log` renders for the date, time and file flags of a logger
(it depends on the clock and the call site, which are part of the world). -/
structure Process (σ : Type) where
  Stdout : Writer σ
  stamp : σ → Nat → String

def log_Ldate : Nat := 1
def log_Ltime : Nat := 2
def log_Lmicroseconds : Nat := 4
def log_Llongfile : Nat := 8
def log_Lshortfile : Nat := 16
def log_LUTC : Nat := 32
def log_Lmsgprefix : Nat := 64
def log_LstdFlags : Nat := log_Ldate ||| log_Ltime

/-- The fields of a `log.Logger` set by `log.New(out, prefix, flag)`. -/
structure log_Logger (σ : Type) where
  out : Writer σ
  pfx : String
  flag : Nat

/-- The call `log.New(out, prefix, flag)`. -/
def log_New {σ : Type} (out : Writer σ) (pfx : String) (flag : Nat) : log_Logger σ :=
  ⟨out, pfx, flag⟩

/-- The line header of `(*log.Logger).formatHeader`: the prefix (first, or
last under `Lmsgprefix`) around the date, time and file text, which is only
produced when one of those flags is set. -/
def log_Logger.formatHeader {σ : Type} (os : Process σ) (lg : log_Logger σ) (w : σ) : String :=
  (if lg.flag &&& log_Lmsgprefix = 0 then lg.pfx else "") ++
  (if lg.flag &&& (log_Ldate ||| log_Ltime ||| log_Lmicroseconds |||
      log_Llongfile ||| log_Lshortfile) = 0 then "" else os.stamp w lg.flag) ++
  (if lg.flag &&& log_Lmsgprefix = 0 then "" else lg.pfx)

/-- The method `(*log.Logger).Output`: header, text, a newline unless the text
already ends with one, then a single `Write` whose error is returned. -/
def log_Logger.Output {σ : Type} (os : Process σ) (lg : log_Logger σ) (s : String) (w : σ) :
    Option GoError × σ :=
  let buf := lg.formatHeader os w ++ s
  let buf := if s.data.getLast? = some (Char.ofNat 10) then buf else buf ++ "\n"
  lg.out.Write buf w

/-- The method `(*log.Logger).Println` with one string argument:
`l.Output(2, fmt.Sprintln(v))`. It has no result; the error of `Output` is
dropped. -/
def log_Logger.Println {σ : Type} (os : Process σ) (lg : log_Logger σ) (v : String) (w : σ) : σ :=
  (lg.Output os (v ++ "\n") w).2

/-! ## `stdout.go`: the writer sink -/

/-- The struct `StdoutLogger`. -/
structure StdoutLogger (σ : Type) where
  output : log_Logger σ

/-- The method `(*StdoutLogger).Log`. -/
def StdoutLogger.Log {σ : Type} (os : Process σ) (logger : StdoutLogger σ)
    (level : Level) (msg : String) (context : List String) (w : σ) : Option GoError × σ :=
  match formatMsg level msg context with
  | (_, some err) => (some err, w)
  | (formattedMsg, none) => (none, logger.output.Println os formattedMsg w)

def StdoutLogger.Emergency {σ : Type} (os : Process σ) (logger : StdoutLogger σ)
    (msg : String) (context : List String) (w : σ) :=
  logger.Log os logging.Emergency msg context w
def StdoutLogger.Alert {σ : Type} (os : Process σ) (logger : StdoutLogger σ)
    (msg : String) (context : List String) (w : σ) :=
  logger.Log os logging.Alert msg context w
def StdoutLogger.Critical {σ : Type} (os : Process σ) (logger : StdoutLogger σ)
    (msg : String) (context : List String) (w : σ) :=
  logger.Log os logging.Critical msg context w
def StdoutLogger.Error {σ : Type} (os : Process σ) (logger : StdoutLogger σ)
    (msg : String) (context : List String) (w : σ) :=
  logger.Log os logging.Error msg context w
def StdoutLogger.Warning {σ : Type} (os : Process σ) (logger : StdoutLogger σ)
    (msg : String) (context : List String) (w : σ) :=
  logger.Log os logging.Warning msg context w
def StdoutLogger.Notice {σ : Type} (os : Process σ) (logger : StdoutLogger σ)
    (msg : String) (context : List String) (w : σ) :=
  logger.Log os logging.Notice msg context w
def StdoutLogger.Informational {σ : Type} (os : Process σ) (logger : StdoutLogger σ)
    (msg : String) (context : List String) (w : σ) :=
  logger.Log os logging.Informational msg context w
def StdoutLogger.Debug {σ : Type} (os : Process σ) (logger : StdoutLogger σ)
    (msg : String) (context : List String) (w : σ) :=
  logger.Log os logging.Debug msg context w

/-- The constructor `NewStdoutLogger`. -/
def NewStdoutLogger {σ : Type} (os : Process σ) : StdoutLogger σ :=
  ⟨log_New os.Stdout "" log_LstdFlags⟩

/-- A `*StdoutLogger` seen through the interface `Logger`. -/
def StdoutLogger.asLogger {σ : Type} (os : Process σ) (logger : StdoutLogger σ) : Logger σ where
  Emergency := logger.Emergency os
  Alert := logger.Alert os
  Critical := logger.Critical os
  Error := logger.Error os
  Warning := logger.Warning os
  Notice := logger.Notice os
  Informational := logger.Informational os
  Debug := logger.Debug os
  Log := logger.Log os

/-! ## `logger.go`: the fan-out logger -/

/-- The struct `logger`; its embedded interface field is never set nor read. -/
structure logger (σ : Type) where
  loggers : List (Logger σ)

/-- The loop of `logger.Log` over the children that remain. The context is a
value here: this is the loop for children that only read the slice they are
handed, as every sink of the package does. `logger.dispatchShared` below is
the same loop with the slice shared between the calls, and
`dispatchShared_sliceLog` shows that the two agree on such children. -/
def logger.dispatch {σ : Type} (level : Level) (msg : String) (context : List String) :
    List (Logger σ) → σ → Option GoError × σ
  | [], w => (none, w)
  | child :: rest, w =>
    match child.Log level msg context w with
    | (some err, w1) => (some err, w1)
    | (none, w1) => logger.dispatch level msg context rest w1

/-- The method `logger.Log`. -/
def logger.Log {σ : Type} (l : logger σ) (level : Level) (msg : String)
    (context : List String) (w : σ) : Option GoError × σ :=
  logger.dispatch level msg context l.loggers w

def logger.Emergency {σ : Type} (l : logger σ) (msg : String) (context : List String) (w : σ) :=
  l.Log logging.Emergency msg context w
def logger.Alert {σ : Type} (l : logger σ) (msg : String) (context : List String) (w : σ) :=
  l.Log logging.Alert msg context w
def logger.Critical {σ : Type} (l : logger σ) (msg : String) (context : List String) (w : σ) :=
  l.Log logging.Critical msg context w
def logger.Error {σ : Type} (l : logger σ) (msg : String) (context : List String) (w : σ) :=
  l.Log logging.Error msg context w
def logger.Warning {σ : Type} (l : logger σ) (msg : String) (context : List String) (w : σ) :=
  l.Log logging.Warning msg context w
def logger.Notice {σ : Type} (l : logger σ) (msg : String) (context : List String) (w : σ) :=
  l.Log logging.Notice msg context w
def logger.Informational {σ : Type} (l : logger σ) (msg : String) (context : List String) (w : σ) :=
  l.Log logging.Informational msg context w
def logger.Debug {σ : Type} (l : logger σ) (msg : String) (context : List String) (w : σ) :=
  l.Log logging.Debug msg context w

/-- A `*logger` seen through the interface `Logger`. -/
def logger.asLogger {σ : Type} (l : logger σ) : Logger σ where
  Emergency := l.Emergency
  Alert := l.Alert
  Critical := l.Critical
  Error := l.Error
  Warning := l.Warning
  Notice := l.Notice
  Informational := l.Informational
  Debug := l.Debug
  Log := l.Log

/-- The constructor `NewLogger`; the result is the struct behind the returned
interface value. -/
def NewLogger {σ : Type} (os : Process σ) (loggers : List (Logger σ)) : logger σ :=
  if loggers.length = 0 then ⟨[(NewStdoutLogger os).asLogger os]⟩
  else ⟨loggers⟩

/-! ## Worlds used to run the code -/

/-- A `bytes.Buffer` as a world: `Write` appends and never fails. -/
def bufferWriter : Writer String := ⟨fun p b => (none, b ++ p)⟩

/-- A destination whose `Write` always fails with `e` and stores nothing. -/
def failingWriter (e : GoError) : Writer String := ⟨fun _ b => (some e, b)⟩

/-- A process whose standard output is a buffer and whose clock shows a fixed
text. -/
def bufferProcess : Process String := ⟨bufferWriter, fun _ _ => "2009/11/10 23:00:00 "⟩

/-! ## Vocabulary of the specification -/

/-- A level is one of the eight defined severities. -/
def validLevel (l : Level) : Prop := 0 ≤ l ∧ l ≤ 7

instance (l : Level) : Decidable (validLevel l) := by
  unfold validLevel; infer_instance

/-- The canonical names in the order the specification lists them. -/
def canonicalNames : List String :=
  ["Emergency", "Alert", "Critical", "Error", "Warning", "Notice", "Informational", "Debug"]

/-- The canonical name the specification gives to severity `l`. -/
def canonicalName (l : Level) : String := canonicalNames.getD l.toNat ""

/-- The line of the specification: `[Name] message`, then every context
string in order, each preceded by a comma and a space. -/
def specLine (name msg : String) (context : List String) : String :=
  "[" ++ name ++ "] " ++ msg ++ String.join (context.map fun c => ", " ++ c)

/-- Text `needle` occurs in text `hay` (Go's `strings.Contains(hay, needle)`). -/
def Contains (hay needle : String) : Prop := needle.data <:+: hay.data

/-- The eight leveled methods of a logger, from `Emergency` to `Debug`. -/
def Logger.leveled {σ : Type} (lg : Logger σ) : List (LogFunc σ) :=
  [lg.Emergency, lg.Alert, lg.Critical, lg.Error, lg.Warning, lg.Notice,
   lg.Informational, lg.Debug]

/-- One observed call of a child's `Log`: which child, and the arguments. -/
structure Call where
  child : Nat
  level : Level
  msg : String
  context : List String
  deriving DecidableEq, Repr

/-- A method under observation: it does what `f` does and the call is added
at the end of the call record kept beside the world. -/
def observeCall {σ : Type} (child : Nat) (level : Level) (f : LogFunc σ) :
    LogFunc (σ × List Call) :=
  fun msg context wc =>
    ((f msg context wc.1).1, ((f msg context wc.1).2, wc.2 ++ [⟨child, level, msg, context⟩]))

/-- Child number `i` under observation: the same logger, every call recorded. -/
def Logger.observed {σ : Type} (i : Nat) (lg : Logger σ) : Logger (σ × List Call) where
  Emergency := observeCall i logging.Emergency lg.Emergency
  Alert := observeCall i logging.Alert lg.Alert
  Critical := observeCall i logging.Critical lg.Critical
  Error := observeCall i logging.Error lg.Error
  Warning := observeCall i logging.Warning lg.Warning
  Notice := observeCall i logging.Notice lg.Notice
  Informational := observeCall i logging.Informational lg.Informational
  Debug := observeCall i logging.Debug lg.Debug
  Log := fun level => observeCall i level (lg.Log level)

/-- The children of a fan-out logger under observation, numbered from `i`. -/
def observeFrom {σ : Type} : Nat → List (Logger σ) → List (Logger (σ × List Call))
  | _, [] => []
  | i, lg :: rest => lg.observed i :: observeFrom (i + 1) rest

/-- The calls `i, i+1, .., i+n-1` with the same arguments: what is recorded
when `n` children numbered from `i` are each called once, in order. -/
def callsFrom (level : Level) (msg : String) (context : List String) : Nat → Nat → List Call
  | _, 0 => []
  | i, n + 1 => ⟨i, level, msg, context⟩ :: callsFrom level msg context (i + 1) n

/-- Called one after the other from world `w`, with the same arguments, every
logger of the list returns no error, and the world is `w1` at the end. -/
inductive SucceedInTurn {σ : Type} (level : Level) (msg : String) (context : List String) :
    List (Logger σ) → σ → σ → Prop
  | done (w : σ) : SucceedInTurn level msg context [] w w
  | step (lg : Logger σ) (rest : List (Logger σ)) (w w1 w2 : σ) :
      lg.Log level msg context w = (none, w1) →
      SucceedInTurn level msg context rest w1 w2 →
      SucceedInTurn level msg context (lg :: rest) w w2

/-- A logger whose every method fails with `e` and does nothing else. -/
def failingLogger {σ : Type} (e : GoError) : Logger σ where
  Emergency := fun _ _ w => (some e, w)
  Alert := fun _ _ w => (some e, w)
  Critical := fun _ _ w => (some e, w)
  Error := fun _ _ w => (some e, w)
  Warning := fun _ _ w => (some e, w)
  Notice := fun _ _ w => (some e, w)
  Informational := fun _ _ w => (some e, w)
  Debug := fun _ _ w => (some e, w)
  Log := fun _ _ _ w => (some e, w)

/-- How a logger is put together from the sinks of the package: a no-op sink,
a writer sink, or `NewLogger` applied to loggers put together the same way. -/
inductive Assembly (σ : Type) where
  | noop : Assembly σ
  | writer : StdoutLogger σ → Assembly σ
  | fanout : List (Assembly σ) → Assembly σ

mutual
/-- The logger an assembly stands for. -/
def Assembly.build {σ : Type} (os : Process σ) : Assembly σ → Logger σ
  | .noop => NewNilLogger
  | .writer s => s.asLogger os
  | .fanout parts => (NewLogger os (Assembly.buildAll os parts)).asLogger
/-- The loggers a list of assemblies stands for. -/
def Assembly.buildAll {σ : Type} (os : Process σ) : List (Assembly σ) → List (Logger σ)
  | [] => []
  | a :: rest => a.build os :: Assembly.buildAll os rest
end

mutual
/-- The assembly holds a writer sink somewhere; `NewLogger` without arguments
holds the default one. -/
def Assembly.hasWriter {σ : Type} : Assembly σ → Bool
  | .noop => false
  | .writer _ => true
  | .fanout parts => parts.isEmpty || Assembly.anyWriter parts
/-- One of the assemblies holds a writer sink. -/
def Assembly.anyWriter {σ : Type} : List (Assembly σ) → Bool
  | [] => false
  | a :: rest => a.hasWriter || Assembly.anyWriter rest
end

/-- The name of a method of the interface `Logger`; `Log` comes with its level. -/
inductive Method where
  | Emergency
  | Alert
  | Critical
  | Error
  | Warning
  | Notice
  | Informational
  | Debug
  | Log (level : Level)
  deriving DecidableEq, Repr

/-- The method of a logger that a name stands for. -/
def Logger.method {σ : Type} (lg : Logger σ) : Method → LogFunc σ
  | .Emergency => lg.Emergency
  | .Alert => lg.Alert
  | .Critical => lg.Critical
  | .Error => lg.Error
  | .Warning => lg.Warning
  | .Notice => lg.Notice
  | .Informational => lg.Informational
  | .Debug => lg.Debug
  | .Log level => lg.Log level

/-- One call made by a client: the method, the message and the context. -/
structure Invocation where
  method : Method
  msg : String
  context : List String
  deriving DecidableEq, Repr

/-- A client makes the calls one after the other on the same logger: the
errors returned, in order, and the world at the end. -/
def Logger.run {σ : Type} (lg : Logger σ) : List Invocation → σ → List (Option GoError) × σ
  | [], w => ([], w)
  | call :: rest, w =>
    ((lg.method call.method call.msg call.context w).1 ::
       (Logger.run lg rest (lg.method call.method call.msg call.context w).2).1,
     (Logger.run lg rest (lg.method call.method call.msg call.context w).2).2)

/-- The method `Log` of a child as the loop of `logger.Log` calls it in Go:
`context...` hands over the caller's slice itself, not a copy, so the child
can overwrite its elements. Besides the error and the world, a call leaves
the contents of that slice. -/
abbrev SliceLog (σ : Type) := Level → String → List String → σ → Option GoError × σ × List String

/-- The loop of `logger.Log` with the one context slice shared by all the
calls: every child receives the slice as the children before it left it. -/
def logger.dispatchShared {σ : Type} (level : Level) (msg : String) :
    List (SliceLog σ) → List String → σ → Option GoError × σ × List String
  | [], context, w => (none, w, context)
  | child :: rest, context, w =>
    match child level msg context w with
    | (some err, w1, context1) => (some err, w1, context1)
    | (none, w1, context1) => logger.dispatchShared level msg rest context1 w1

/-- A logger that only reads its context, seen as a child called with the
shared slice: the slice is left as it was. Every sink of the package is one. -/
def Logger.sliceLog {σ : Type} (lg : Logger σ) : SliceLog σ :=
  fun level msg context w =>
    ((lg.Log level msg context w).1, (lg.Log level msg context w).2, context)

/-- A child that succeeds, leaves the world alone and overwrites the first
element of the context slice, when there is one, with `s`. -/
def overwritingChild {σ : Type} (s : String) : SliceLog σ :=
  fun _ _ context w =>
    match context with
    | [] => (none, w, [])
    | _ :: tl => (none, w, s :: tl)

/-- A child called with the shared slice, under observation: the call is
recorded with the contents of the slice on entry. -/
def observeSlice {σ : Type} (i : Nat) (f : SliceLog σ) : SliceLog (σ × List Call) :=
  fun level msg context wc =>
    ((f level msg context wc.1).1,
     ((f level msg context wc.1).2.1, wc.2 ++ [⟨i, level, msg, context⟩]),
     (f level msg context wc.1).2.2)

/-- The children called with the shared slice, under observation, numbered
from `i`. -/
def observeSliceFrom {σ : Type} : Nat → List (SliceLog σ) → List (SliceLog (σ × List Call))
  | _, [] => []
  | i, f :: rest => observeSlice i f :: observeSliceFrom (i + 1) rest

/-- The calls `i, i+1, ..` with the same level and message, the k-th with the
k-th of the given contexts. -/
def callsSeen (level : Level) (msg : String) : Nat → List (List String) → List Call
  | _, [] => []
  | i, context :: rest => ⟨i, level, msg, context⟩ :: callsSeen level msg (i + 1) rest

/-- Called one after the other with the shared slice, from the contents
`context` and the world `w`, every child returns no error; `seen` lists the
contents each child received, and the slice and the world end as `context1`
and `w1`. -/
inductive SucceedInTurnShared {σ : Type} (level : Level) (msg : String) :
    List (SliceLog σ) → List String → σ → List (List String) → List String → σ → Prop
  | done (context : List String) (w : σ) :
      SucceedInTurnShared level msg [] context w [] context w
  | step (f : SliceLog σ) (rest : List (SliceLog σ)) (context context1 context2 : List String)
      (w w1 w2 : σ) (seen : List (List String)) :
      f level msg context w = (none, w1, context1) →
      SucceedInTurnShared level msg rest context1 w1 seen context2 w2 →
      SucceedInTurnShared level msg (f :: rest) context w (context :: seen) context2 w2

/-! ## Lemmas about the embedding -/

theorem strings_Join_pair (a b sep : String) : strings_Join [a, b] sep = a ++ sep ++ b := rfl

theorem join_cons (a : String) (l : List String) : String.join (a :: l) = a ++ String.join l := by
  apply String.ext
  simp [String.data_join]

theorem formatLoop_eq (context : List String) (content : String) :
    formatLoop context content = content ++ String.join (context.map fun c => ", " ++ c) := by
  induction context generalizing content with
  | nil => simp [formatLoop, String.join]
  | cons extra rest ih =>
    simp only [formatLoop, strings_Join_pair, List.map_cons, join_cons, ih]
    simp [String.append_assoc]

theorem stringifyLevel_valid (l : Level) (h : validLevel l) :
    stringifyLevel l = (canonicalName l, none) := by
  obtain ⟨h0, h7⟩ := h
  interval_cases l <;> decide

theorem outside_ne (l : Int) (h : ¬ (0 ≤ l ∧ l ≤ 7)) :
    l ≠ 0 ∧ l ≠ 1 ∧ l ≠ 2 ∧ l ≠ 3 ∧ l ≠ 4 ∧ l ≠ 5 ∧ l ≠ 6 ∧ l ≠ 7 := by
  omega

theorem stringifyLevel_invalid (l : Level) (h : ¬ validLevel l) :
    stringifyLevel l = ("", some UndefinedLevel) := by
  obtain ⟨e0, e1, e2, e3, e4, e5, e6, e7⟩ := outside_ne l h
  simp [stringifyLevel, Emergency, Alert, Critical, Error, Warning, Notice, Informational,
    Debug, UndefinedLevel, e0, e1, e2, e3, e4, e5, e6, e7]

theorem formatMsg_valid (l : Level) (msg : String) (context : List String) (h : validLevel l) :
    formatMsg l msg context = (specLine (canonicalName l) msg context, none) := by
  simp [formatMsg, stringifyLevel_valid l h, formatLoop_eq, specLine]

theorem formatMsg_invalid (l : Level) (msg : String) (context : List String)
    (h : ¬ validLevel l) : formatMsg l msg context = ("", some UndefinedLevel) := by
  simp [formatMsg, stringifyLevel_invalid l h]

theorem Println_eq {σ : Type} (os : Process σ) (lg : log_Logger σ) (v : String) (w : σ) :
    lg.Println os v w = (lg.out.Write (lg.formatHeader os w ++ v ++ "\n") w).2 := by
  have hl : (v ++ "\n").data.getLast? = some (Char.ofNat 10) := by
    have : ("\n" : String).data = [Char.ofNat 10] := by decide
    rw [String.data_append, this, List.getLast?_concat]
  simp only [log_Logger.Println, log_Logger.Output, hl, if_true, String.append_assoc]

theorem formatHeader_plain {σ : Type} (os : Process σ) (lg : log_Logger σ) (w : σ)
    (hp : lg.pfx = "") (hf : lg.flag = 0) : lg.formatHeader os w = "" := by
  simp [log_Logger.formatHeader, hp, hf]

theorem StdoutLogger_Log_valid {σ : Type} (os : Process σ) (logger : StdoutLogger σ)
    (l : Level) (msg : String) (context : List String) (w : σ) (h : validLevel l) :
    logger.Log os l msg context w =
      (none, (logger.output.out.Write
        (logger.output.formatHeader os w ++ (formatMsg l msg context).1 ++ "\n") w).2) := by
  simp [StdoutLogger.Log, formatMsg_valid l msg context h, Println_eq]

theorem StdoutLogger_Log_undefined {σ : Type} (os : Process σ) (logger : StdoutLogger σ)
    (l : Level) (msg : String) (context : List String) (w : σ) (h : ¬ validLevel l) :
    logger.Log os l msg context w = (some UndefinedLevel, w) := by
  simp [StdoutLogger.Log, formatMsg_invalid l msg context h]

theorem Contains_mid (a b c : String) : Contains (a ++ b ++ c) b := by
  unfold Contains
  simp only [String.data_append]
  exact List.infix_append _ _ _

theorem Contains_append_left (a b x : String) (h : Contains a x) : Contains (a ++ b) x := by
  unfold Contains at *
  rw [String.data_append]
  exact h.trans (List.prefix_append _ _).isInfix

theorem Contains_append_right (a b x : String) (h : Contains b x) : Contains (a ++ b) x := by
  unfold Contains at *
  rw [String.data_append]
  exact h.trans (List.suffix_append _ _).isInfix

theorem Contains_join (context : List String) (c : String) (hc : c ∈ context) :
    Contains (String.join (context.map fun c => ", " ++ c)) c := by
  unfold Contains
  rw [String.data_join]
  have hm : (", " ++ c).data ∈ List.map String.data (context.map fun c => ", " ++ c) :=
    List.mem_map_of_mem _ (List.mem_map_of_mem _ hc)
  refine List.IsInfix.trans ?_ (List.infix_of_mem_flatten hm)
  rw [String.data_append]
  exact (List.suffix_append _ _).isInfix

theorem specLine_contains_msg (name msg : String) (context : List String) :
    Contains (specLine name msg context) msg := by
  unfold specLine
  exact Contains_mid _ _ _

theorem specLine_contains_context (name msg : String) (context : List String) (c : String)
    (hc : c ∈ context) : Contains (specLine name msg context) c := by
  unfold specLine
  exact Contains_append_right _ _ _ (Contains_join context c hc)

theorem buffer_leveled_contains (os : Process String) (p : String) (f : Nat) (b : String)
    (l : Level) (msg : String) (context : List String) (h : validLevel l) :
    ((StdoutLogger.mk (log_New bufferWriter p f)).Log os l msg context b).1 = none ∧
    Contains ((StdoutLogger.mk (log_New bufferWriter p f)).Log os l msg context b).2 msg ∧
    ∀ c ∈ context,
      Contains ((StdoutLogger.mk (log_New bufferWriter p f)).Log os l msg context b).2 c := by
  rw [StdoutLogger_Log_valid os _ l msg context b h, formatMsg_valid l msg context h]
  refine ⟨rfl, ?_, ?_⟩
  · exact Contains_append_right _ _ _ (Contains_append_left _ _ _
      (Contains_append_right _ _ _ (specLine_contains_msg _ _ _)))
  · intro c hc
    exact Contains_append_right _ _ _ (Contains_append_left _ _ _
      (Contains_append_right _ _ _ (specLine_contains_context _ _ _ c hc)))

theorem dispatch_succeed {σ : Type} (level : Level) (msg : String) (context : List String)
    (cs rest : List (Logger σ)) (w w1 : σ) (h : SucceedInTurn level msg context cs w w1) :
    logger.dispatch level msg context (cs ++ rest) w =
      logger.dispatch level msg context rest w1 := by
  induction h with
  | done w => rfl
  | step lg tl w wa wb hlg _ ih =>
    simp only [List.cons_append, logger.dispatch, hlg]
    exact ih

theorem observeFrom_append {σ : Type} (xs ys : List (Logger σ)) (i : Nat) :
    observeFrom i (xs ++ ys) = observeFrom i xs ++ observeFrom (i + xs.length) ys := by
  induction xs generalizing i with
  | nil => simp [observeFrom]
  | cons x tl ih =>
    have h := ih (i + 1)
    rw [show i + 1 + tl.length = i + (tl.length + 1) by omega] at h
    simp [observeFrom, h]

theorem callsFrom_succ (level : Level) (msg : String) (context : List String) (i n : Nat) :
    callsFrom level msg context i (n + 1) =
      callsFrom level msg context i n ++ [⟨i + n, level, msg, context⟩] := by
  induction n generalizing i with
  | zero => simp [callsFrom]
  | succ n ih =>
    rw [callsFrom, ih (i + 1), callsFrom]
    simp only [List.cons_append]
    rw [show i + 1 + n = i + (n + 1) by omega]

theorem observed_succeed {σ : Type} (level : Level) (msg : String) (context : List String)
    (cs : List (Logger σ)) (w w1 : σ) (h : SucceedInTurn level msg context cs w w1)
    (i : Nat) (calls : List Call) :
    SucceedInTurn level msg context (observeFrom i cs) (w, calls)
      (w1, calls ++ callsFrom level msg context i cs.length) := by
  induction h generalizing i calls with
  | done w => simpa [observeFrom, callsFrom] using SucceedInTurn.done (w, calls)
  | step lg tl w wa wb hlg _ ih =>
    have hstep : (lg.observed i).Log level msg context (w, calls) =
        (none, (wa, calls ++ [⟨i, level, msg, context⟩])) := by
      simp [Logger.observed, observeCall, hlg]
    have htl := ih (i + 1) (calls ++ [⟨i, level, msg, context⟩])
    simp only [List.length_cons, callsFrom, observeFrom]
    rw [List.append_assoc] at htl
    exact SucceedInTurn.step _ _ _ _ _ hstep htl

theorem dispatch_fail_head {σ : Type} (level : Level) (msg : String) (context : List String)
    (c : Logger σ) (rest : List (Logger σ)) (w : σ) (E : GoError)
    (hc : (c.Log level msg context w).1 = some E) :
    logger.dispatch level msg context (c :: rest) w = (some E, (c.Log level msg context w).2) := by
  cases hr : c.Log level msg context w with
  | mk e w2 =>
    rw [hr] at hc
    simp only at hc
    subst hc
    simp [logger.dispatch, hr]

theorem observed_Log {σ : Type} (i : Nat) (c : Logger σ) (level : Level) (msg : String)
    (context : List String) (w : σ) (calls : List Call) :
    (c.observed i).Log level msg context (w, calls) =
      ((c.Log level msg context w).1,
       ((c.Log level msg context w).2, calls ++ [⟨i, level, msg, context⟩])) := rfl

theorem fanout_first_fails {σ : Type} (A B : Logger σ) (E : GoError)
    (hA : ∀ lv m c u, (A.Log lv m c u).1 = some E)
    (level : Level) (msg : String) (context : List String) (u : σ) :
    (logger.Log ⟨[A, B]⟩ level msg context u).1 = some E ∧
    (logger.Log ⟨observeFrom 0 [A, B]⟩ level msg context (u, [])).1 = some E ∧
    (logger.Log ⟨observeFrom 0 [A, B]⟩ level msg context (u, [])).2.2 =
      [⟨0, level, msg, context⟩] := by
  have h1 := dispatch_fail_head level msg context A [B] u E (hA _ _ _ _)
  have h2 := dispatch_fail_head level msg context (A.observed 0) [B.observed 1] (u, []) E
    (by rw [observed_Log]; exact hA _ _ _ _)
  simp only [logger.Log, observeFrom]
  rw [h1, h2, observed_Log]
  simp

theorem NewLogger_default_invalid {σ : Type} (os : Process σ) (l : Level) (msg : String)
    (context : List String) (w : σ) (h : ¬ validLevel l) :
    (NewLogger os []).Log l msg context w = (some UndefinedLevel, w) := by
  have hs := StdoutLogger_Log_undefined os (NewStdoutLogger os) l msg context w h
  simp only [NewLogger, logger.Log, List.length_nil, if_true, logger.dispatch,
    StdoutLogger.asLogger, hs]

mutual
theorem build_invalid {σ : Type} (os : Process σ) (l : Level) (msg : String)
    (context : List String) (h : ¬ validLevel l) :
    ∀ (a : Assembly σ) (w : σ), (a.build os).Log l msg context w =
      (if a.hasWriter = true then some UndefinedLevel else none, w)
  | .noop, w => by simp [Assembly.build, Assembly.hasWriter, NewNilLogger, NilLogger.Log]
  | .writer s, w => by
    simp [Assembly.build, Assembly.hasWriter, StdoutLogger.asLogger,
      StdoutLogger_Log_undefined os s l msg context w h]
  | .fanout [], w => by
    simp only [Assembly.build, Assembly.buildAll, Assembly.hasWriter, logger.asLogger,
      List.isEmpty_nil, Bool.true_or, if_true]
    exact NewLogger_default_invalid os l msg context w h
  | .fanout (a :: rest), w => by
    have hd := buildAll_invalid os l msg context h (a :: rest) w
    simp only [Assembly.build, Assembly.hasWriter, logger.asLogger, logger.Log, NewLogger,
      List.isEmpty_cons, Bool.false_or]
    simp only [Assembly.buildAll, List.length_cons] at hd ⊢
    simpa using hd
theorem buildAll_invalid {σ : Type} (os : Process σ) (l : Level) (msg : String)
    (context : List String) (h : ¬ validLevel l) :
    ∀ (parts : List (Assembly σ)) (w : σ),
      logger.dispatch l msg context (Assembly.buildAll os parts) w =
        (if Assembly.anyWriter parts = true then some UndefinedLevel else none, w)
  | [], w => by simp [Assembly.buildAll, Assembly.anyWriter, logger.dispatch]
  | a :: rest, w => by
    have ha := build_invalid os l msg context h a w
    have hr := buildAll_invalid os l msg context h rest w
    simp only [Assembly.buildAll, Assembly.anyWriter, logger.dispatch, ha]
    by_cases hw : a.hasWriter = true
    · simp [hw]
    · simp [hw, hr]
end

theorem strings_Join_cons (a : String) (cs : List String) (sep : String) :
    strings_Join (a :: cs) sep = a ++ String.join (cs.map fun c => sep ++ c) := by
  induction cs generalizing a with
  | nil => simp [strings_Join, String.join]
  | cons b rest ih =>
    rw [strings_Join, ih b, List.map_cons, join_cons]
    simp [String.append_assoc]

theorem formatHeader_std {σ : Type} (os : Process σ) (w : σ) :
    (NewStdoutLogger os).output.formatHeader os w = os.stamp w log_LstdFlags := by
  have h1 : log_LstdFlags &&& log_Lmsgprefix = 0 := by decide
  have h2 : ¬ log_LstdFlags &&& (log_Ldate ||| log_Ltime ||| log_Lmicroseconds |||
      log_Llongfile ||| log_Lshortfile) = 0 := by decide
  simp [log_Logger.formatHeader, NewStdoutLogger, log_New, h1, h2]

theorem NewLogger_default_valid {σ : Type} (os : Process σ) (l : Level) (msg : String)
    (context : List String) (w : σ) (h : validLevel l) :
    (NewLogger os []).Log l msg context w =
      (none, (os.Stdout.Write
        (os.stamp w log_LstdFlags ++ (formatMsg l msg context).1 ++ "\n") w).2) := by
  have hs := StdoutLogger_Log_valid os (NewStdoutLogger os) l msg context w h
  rw [formatHeader_std] at hs
  simp only [NewLogger, logger.Log, List.length_nil, if_true, logger.dispatch,
    StdoutLogger.asLogger, hs]
  rfl

theorem formatMsg_Debug_plain (x : String) : formatMsg Debug x [] = ("[Debug] " ++ x, none) := by
  rw [formatMsg_valid Debug x [] (by decide)]
  have hn : "[" ++ canonicalName Debug ++ "] " = "[Debug] " := by decide
  simp [specLine, hn, String.join]

theorem dispatch_append {σ : Type} (level : Level) (msg : String) (context : List String)
    (xs ys : List (Logger σ)) (w : σ) :
    logger.dispatch level msg context (xs ++ ys) w =
      match logger.dispatch level msg context xs w with
      | (some err, w1) => (some err, w1)
      | (none, w1) => logger.dispatch level msg context ys w1 := by
  induction xs generalizing w with
  | nil => simp [logger.dispatch]
  | cons x rest ih =>
    simp only [List.cons_append, logger.dispatch]
    cases hx : x.Log level msg context w with
    | mk e w1 =>
      cases e with
      | none => simpa using ih w1
      | some err => simp

theorem NilLogger_method {σ : Type} (m : Method) (msg : String) (context : List String) (w : σ) :
    (NewNilLogger : Logger σ).method m msg context w = (none, w) := by
  cases m <;> rfl

theorem NilLogger_run {σ : Type} (calls : List Invocation) (w : σ) :
    (NewNilLogger : Logger σ).run calls w = (calls.map fun _ => none, w) := by
  induction calls with
  | nil => rfl
  | cons call rest ih => simp [Logger.run, NilLogger_method, ih]

theorem NewLogger_nonempty {σ : Type} (os : Process σ) (xs : List (Logger σ)) (h : xs ≠ []) :
    NewLogger os xs = ⟨xs⟩ := by
  cases xs with
  | nil => exact absurd rfl h
  | cons a tl => rfl

theorem logger_Log_concat {σ : Type} (xs ys : List (Logger σ)) (level : Level) (msg : String)
    (context : List String) (w : σ) :
    logger.Log ⟨xs ++ ys⟩ level msg context w =
      match logger.Log ⟨xs⟩ level msg context w with
      | (some err, w1) => (some err, w1)
      | (none, w1) => logger.Log ⟨ys⟩ level msg context w1 :=
  dispatch_append level msg context xs ys w

theorem nested_eq_flat {σ : Type} (os : Process σ) (xs ys : List (Logger σ)) (h : xs ≠ [])
    (level : Level) (msg : String) (context : List String) (w : σ) :
    (NewLogger os ((NewLogger os xs).asLogger :: ys)).Log level msg context w =
      (NewLogger os (xs ++ ys)).Log level msg context w := by
  have hne : xs ++ ys ≠ [] := by simp [h]
  rw [NewLogger_nonempty os (xs ++ ys) hne, NewLogger_nonempty os _ (List.cons_ne_nil _ _),
    NewLogger_nonempty os xs h, logger_Log_concat]
  simp only [logger.Log, logger.dispatch, logger.asLogger]

theorem observeFrom_ne_nil {σ : Type} (i : Nat) (xs : List (Logger σ)) (h : xs ≠ []) :
    observeFrom i xs ≠ [] := by
  cases xs with
  | nil => exact absurd rfl h
  | cons a tl => simp [observeFrom]

theorem join_append (xs ys : List String) :
    String.join (xs ++ ys) = String.join xs ++ String.join ys := by
  apply String.ext
  simp [String.data_join]

theorem dispatchShared_sliceLog {σ : Type} (level : Level) (msg : String)
    (context : List String) (loggers : List (Logger σ)) (w : σ) :
    logger.dispatchShared level msg (loggers.map Logger.sliceLog) context w =
      ((logger.dispatch level msg context loggers w).1,
       (logger.dispatch level msg context loggers w).2, context) := by
  induction loggers generalizing w with
  | nil => rfl
  | cons lg rest ih =>
    simp only [List.map_cons, logger.dispatchShared, logger.dispatch, Logger.sliceLog]
    cases hlg : lg.Log level msg context w with
    | mk e w1 =>
      cases e with
      | none => simpa using ih w1
      | some err => simp

theorem shared_succeed {σ : Type} (level : Level) (msg : String) (cs : List (SliceLog σ))
    (context context1 : List String) (w w1 : σ) (seen : List (List String))
    (h : SucceedInTurnShared level msg cs context w seen context1 w1) :
    logger.dispatchShared level msg cs context w = (none, w1, context1) := by
  induction h with
  | done context w => rfl
  | step f rest context ca cb w wa wb seen hf _ ih =>
    simp only [logger.dispatchShared, hf]
    exact ih

theorem shared_observed {σ : Type} (level : Level) (msg : String) (cs : List (SliceLog σ))
    (context context1 : List String) (w w1 : σ) (seen : List (List String))
    (h : SucceedInTurnShared level msg cs context w seen context1 w1)
    (i : Nat) (calls : List Call) :
    logger.dispatchShared level msg (observeSliceFrom i cs) context (w, calls) =
      (none, (w1, calls ++ callsSeen level msg i seen), context1) := by
  induction h generalizing i calls with
  | done context w => simp [observeSliceFrom, logger.dispatchShared, callsSeen]
  | step f rest context ca cb w wa wb seen hf _ ih =>
    simp only [observeSliceFrom, logger.dispatchShared, observeSlice, hf, callsSeen]
    rw [ih (i + 1) (calls ++ [Call.mk i level msg context]), List.append_assoc]
    rfl

theorem shared_seen_length {σ : Type} (level : Level) (msg : String) (cs : List (SliceLog σ))
    (context context1 : List String) (w w1 : σ) (seen : List (List String))
    (h : SucceedInTurnShared level msg cs context w seen context1 w1) :
    seen.length = cs.length := by
  induction h with
  | done context w => rfl
  | step f rest context ca cb w wa wb seen hf _ ih => simp [ih]

theorem shared_seen_unwritten {σ : Type} (level : Level) (msg : String)
    (cs : List (SliceLog σ)) (context context1 : List String) (w w1 : σ)
    (seen : List (List String))
    (h : SucceedInTurnShared level msg cs context w seen context1 w1)
    (hread : ∀ f ∈ cs, ∀ (cx : List String) (u : σ), (f level msg cx u).2.2 = cx) :
    seen = List.replicate cs.length context ∧ context1 = context := by
  induction h with
  | done context w => exact ⟨rfl, rfl⟩
  | step f rest context ca cb w wa wb seen hf _ ih =>
    have hca : ca = context := by
      have := hread f (List.mem_cons_self _ _) context w
      rw [hf] at this
      exact this
    subst hca
    obtain ⟨h1, h2⟩ := ih (fun g hg => hread g (List.mem_cons_of_mem _ hg))
    exact ⟨by rw [h1]; rfl, h2⟩

theorem callsSeen_replicate (level : Level) (msg : String) (context : List String)
    (i n : Nat) :
    callsSeen level msg i (List.replicate n context) = callsFrom level msg context i n := by
  induction n generalizing i with
  | zero => rfl
  | succ n ih => simp [List.replicate_succ, callsSeen, callsFrom, ih]

theorem callsSeen_child (level : Level) (msg : String) (i : Nat) (seen : List (List String)) :
    (callsSeen level msg i seen).map Call.child = List.range' i seen.length := by
  induction seen generalizing i with
  | nil => rfl
  | cons c rest ih => simp [callsSeen, ih, List.range'_succ]

theorem callsSeen_args (level : Level) (msg : String) (i : Nat) (seen : List (List String)) :
    ∀ call ∈ callsSeen level msg i seen, call.level = level ∧ call.msg = msg := by
  induction seen generalizing i with
  | nil => simp [callsSeen]
  | cons c rest ih =>
    intro call hcall
    simp only [callsSeen, List.mem_cons] at hcall
    rcases hcall with rfl | hrest
    · exact ⟨rfl, rfl⟩
    · exact ih (i + 1) call hrest

/-! ## The claims -/

/-- C1. Fan-out fail-fast: when the children before c succeed in turn and c,
called next, fails with E, `Log` on the fan-out logger returns exactly E in
the world c left (the effects of the earlier children are kept), and under
observation the calls recorded are those of the children up to c, once each,
in order: no later child is called. In particular with children [A, B] where
A always fails with E, every leveled method returns E, only child 0 is called
and B is never called. -/
theorem logger_Log_fail_fast {σ : Type} (pre post : List (Logger σ)) (c : Logger σ)
    (level : Level) (msg : String) (context : List String) (w w1 w2 : σ) (E : GoError)
    (hpre : SucceedInTurn level msg context pre w w1)
    (hc : c.Log level msg context w1 = (some E, w2)) :
    logger.Log ⟨pre ++ c :: post⟩ level msg context w = (some E, w2) ∧
    logger.Log ⟨observeFrom 0 (pre ++ c :: post)⟩ level msg context (w, []) =
      (some E, (w2, callsFrom level msg context 0 (pre.length + 1))) ∧
    (∀ (A B : Logger σ), (∀ lv m cx u, (A.Log lv m cx u).1 = some E) →
      (∀ fn ∈ (logger.asLogger ⟨[A, B]⟩).leveled, ∀ u, (fn msg context u).1 = some E) ∧
      (∀ fn ∈ (logger.asLogger ⟨observeFrom 0 [A, B]⟩).leveled, ∀ u,
        (fn msg context (u, [])).1 = some E ∧
        (fn msg context (u, [])).2.2.map Call.child = [0] ∧
        ∀ call ∈ (fn msg context (u, [])).2.2, call.child ≠ 1)) := by
  refine ⟨?_, ?_, ?_⟩
  · simp only [logger.Log]
    rw [dispatch_succeed level msg context pre (c :: post) w w1 hpre]
    simp [logger.dispatch, hc]
  · simp only [logger.Log]
    rw [observeFrom_append,
      dispatch_succeed level msg context _ _ _ _
        (observed_succeed level msg context pre w w1 hpre 0 [])]
    simp only [observeFrom, logger.dispatch, observed_Log, hc, List.nil_append, Nat.zero_add]
    rw [callsFrom_succ]
    simp
  · intro A B hA
    constructor
    · intro fn hfn u
      simp only [Logger.leveled, logger.asLogger, List.mem_cons, List.mem_singleton,
        List.not_mem_nil, or_false] at hfn
      rcases hfn with rfl | rfl | rfl | rfl | rfl | rfl | rfl | rfl
      all_goals exact (fanout_first_fails A B E hA _ msg context u).1
    · intro fn hfn u
      simp only [Logger.leveled, logger.asLogger, List.mem_cons, List.mem_singleton,
        List.not_mem_nil, or_false] at hfn
      rcases hfn with rfl | rfl | rfl | rfl | rfl | rfl | rfl | rfl
      all_goals
        refine ⟨(fanout_first_fails A B E hA _ msg context u).2.1, ?_, ?_⟩
        · simp only [logger.Emergency, logger.Alert, logger.Critical, logger.Error,
            logger.Warning, logger.Notice, logger.Informational, logger.Debug]
          rw [(fanout_first_fails A B E hA _ msg context u).2.2]
          rfl
        · simp only [logger.Emergency, logger.Alert, logger.Critical, logger.Error,
            logger.Warning, logger.Notice, logger.Informational, logger.Debug]
          rw [(fanout_first_fails A B E hA _ msg context u).2.2]
          simp

theorem logger_Log_fail_fast_witness :
    logger.Log ⟨observeFrom 0 [NewNilLogger, failingLogger (errors_New "E"), NewNilLogger]⟩
      Warning "m" ["c"] ((), []) =
      (some (errors_New "E"), ((), [⟨0, Warning, "m", ["c"]⟩, ⟨1, Warning, "m", ["c"]⟩])) :=
  (logger_Log_fail_fast [NewNilLogger] [NewNilLogger] (failingLogger (errors_New "E"))
    Warning "m" ["c"] () () () (errors_New "E")
    (SucceedInTurn.step _ _ _ _ _ rfl (SucceedInTurn.done _)) rfl).2.1

/-- C2, the claim as stated fails: the fan-out logger hands the one context
slice to every child. With children [A, B] that both succeed, where A
overwrites the first element of the slice and B only reads it, the call
Error("m", "c1", "c2") returns no error and each child is called once, in
order, but B receives the context ["X", "c2"], not ["c1", "c2"]. -/
theorem logger_Log_context_not_identical :
    logger.dispatchShared Error "m"
        (observeSliceFrom 0 [overwritingChild "X", (NewNilLogger : Logger Unit).sliceLog])
        ["c1", "c2"] ((), []) =
      (none, ((), [⟨0, Error, "m", ["c1", "c2"]⟩, ⟨1, Error, "m", ["X", "c2"]⟩]),
        ["X", "c2"]) ∧
    (overwritingChild "X" Error "m" ["c1", "c2"] ()).1 = none ∧
    ((NewNilLogger : Logger Unit).sliceLog Error "m" ["X", "c2"] ()).1 = none ∧
    (["X", "c2"] : List String) ≠ ["c1", "c2"] := by
  decide

/-- C2, amended. Fan-out success path: when all the children succeed in turn,
`Log` on the fan-out logger returns no error in the world they left, and every
child is called exactly once, in construction order, with the level and the
message given and with the one context slice shared by all the calls: the
contents a child receives are those the children before it left, the given
ones for the first child. When no child writes to the slice, as no sink of
the package does, every child receives the context sequence given. -/
theorem logger_Log_all_succeed_shared {σ : Type} (children : List (SliceLog σ))
    (level : Level) (msg : String) (context context1 : List String) (w w1 : σ)
    (seen : List (List String))
    (h : SucceedInTurnShared level msg children context w seen context1 w1) :
    logger.dispatchShared level msg children context w = (none, w1, context1) ∧
    logger.dispatchShared level msg (observeSliceFrom 0 children) context (w, []) =
      (none, (w1, callsSeen level msg 0 seen), context1) ∧
    (callsSeen level msg 0 seen).map Call.child = List.range children.length ∧
    (∀ call ∈ callsSeen level msg 0 seen, call.level = level ∧ call.msg = msg) ∧
    (∀ first rest, seen = first :: rest → first = context) ∧
    ((∀ f ∈ children, ∀ (cx : List String) (u : σ), (f level msg cx u).2.2 = cx) →
      callsSeen level msg 0 seen = callsFrom level msg context 0 children.length ∧
      context1 = context) ∧
    (∀ loggers : List (Logger σ), children = loggers.map Logger.sliceLog →
      logger.Log ⟨loggers⟩ level msg context w = (none, w1) ∧
      callsSeen level msg 0 seen = callsFrom level msg context 0 loggers.length) := by
  have hlen := shared_seen_length level msg children context context1 w w1 seen h
  have hrun := shared_succeed level msg children context context1 w w1 seen h
  refine ⟨hrun, ?_, ?_, callsSeen_args level msg 0 seen, ?_, ?_, ?_⟩
  · have ho := shared_observed level msg children context context1 w w1 seen h 0 []
    rw [List.nil_append] at ho
    exact ho
  · rw [callsSeen_child, hlen, List.range_eq_range']
  · intro first rest hseen
    cases h with
    | done => cases hseen
    | step f tl _ ca cb _ wa wb sn hf hrest =>
      cases hseen
      rfl
  · intro hread
    obtain ⟨h1, h2⟩ :=
      shared_seen_unwritten level msg children context context1 w w1 seen h hread
    exact ⟨by rw [h1, callsSeen_replicate], h2⟩
  · intro loggers hchildren
    subst hchildren
    have hread : ∀ f ∈ loggers.map Logger.sliceLog, ∀ (cx : List String) (u : σ),
        (f level msg cx u).2.2 = cx := by
      intro f hf cx u
      obtain ⟨lg, _, rfl⟩ := List.mem_map.mp hf
      rfl
    obtain ⟨h1, _⟩ :=
      shared_seen_unwritten level msg _ context context1 w w1 seen h hread
    rw [dispatchShared_sliceLog] at hrun
    constructor
    · have e1 : (logger.dispatch level msg context loggers w).1 = none :=
        congrArg Prod.fst hrun
      have e2 : (logger.dispatch level msg context loggers w).2 = w1 :=
        congrArg (fun r => r.2.1) hrun
      exact Prod.ext e1 e2
    · rw [h1, callsSeen_replicate, List.length_map]

theorem logger_Log_all_succeed_shared_witness :
    logger.dispatchShared Error "m"
        (observeSliceFrom 0 [(NewNilLogger : Logger Unit).sliceLog,
          (NewNilLogger : Logger Unit).sliceLog]) ["c1", "c2"] ((), []) =
      (none, ((), [⟨0, Error, "m", ["c1", "c2"]⟩, ⟨1, Error, "m", ["c1", "c2"]⟩]),
        ["c1", "c2"]) :=
  (logger_Log_all_succeed_shared
    [(NewNilLogger : Logger Unit).sliceLog, (NewNilLogger : Logger Unit).sliceLog]
    Error "m" ["c1", "c2"] ["c1", "c2"] () () [["c1", "c2"], ["c1", "c2"]]
    (SucceedInTurnShared.step _ _ _ _ _ _ _ _ _ rfl
      (SucceedInTurnShared.step _ _ _ _ _ _ _ _ _ rfl
        (SucceedInTurnShared.done _ _)))).2.1

/-- C3. Construction of the fan-out logger: `NewLogger` without children gives
a logger whose child list has exactly one element, the writer sink made by
`NewStdoutLogger`, whose destination is standard output; `NewLogger` with a
non-empty list of children gives a logger whose child list is that list. -/
theorem NewLogger_children {σ : Type} (os : Process σ) (loggers : List (Logger σ)) :
    (NewLogger os []).loggers = [(NewStdoutLogger os).asLogger os] ∧
    (NewLogger os []).loggers.length = 1 ∧
    (NewStdoutLogger os).output.out = os.Stdout ∧
    (loggers ≠ [] → (NewLogger os loggers).loggers = loggers) := by
  refine ⟨rfl, rfl, rfl, ?_⟩
  intro hne
  cases loggers with
  | nil => exact absurd rfl hne
  | cons a tl => rfl

theorem NewLogger_children_witness :
    (NewLogger bufferProcess [NewNilLogger, NewNilLogger, failingLogger (errors_New "E"),
      NewNilLogger]).loggers =
      [NewNilLogger, NewNilLogger, failingLogger (errors_New "E"), NewNilLogger] :=
  (NewLogger_children bufferProcess _).2.2.2 (by simp)

/-- C4. Severity resolution: `stringifyLevel l` succeeds exactly when `l` is in
0..7; it then returns the canonical name of `l` (the eight names are listed),
and for every other `l` it returns the empty name with the UndefinedLevel
error. -/
theorem stringifyLevel_resolution (l : Level) :
    ((stringifyLevel l).2 = none ↔ 0 ≤ l ∧ l ≤ 7) ∧
    (0 ≤ l ∧ l ≤ 7 → stringifyLevel l = (canonicalName l, none)) ∧
    (¬ (0 ≤ l ∧ l ≤ 7) → stringifyLevel l = ("", some (errors_New "Undefined log level"))) ∧
    (canonicalName 0 = "Emergency" ∧ canonicalName 1 = "Alert" ∧
     canonicalName 2 = "Critical" ∧ canonicalName 3 = "Error" ∧
     canonicalName 4 = "Warning" ∧ canonicalName 5 = "Notice" ∧
     canonicalName 6 = "Informational" ∧ canonicalName 7 = "Debug") := by
  refine ⟨?_, stringifyLevel_valid l, stringifyLevel_invalid l, by decide⟩
  by_cases h : validLevel l
  · simp [stringifyLevel_valid l h]; exact h
  · simp [stringifyLevel_invalid l h]
    exact fun h0 => not_le.mp fun h7 => h ⟨h0, h7⟩

theorem stringifyLevel_resolution_witness :
    stringifyLevel 3 = ("Error", none) ∧
    stringifyLevel (-1) = ("", some (errors_New "Undefined log level")) ∧
    stringifyLevel 8 = ("", some (errors_New "Undefined log level")) :=
  ⟨(stringifyLevel_resolution 3).2.1 (by decide),
   (stringifyLevel_resolution (-1)).2.2.1 (by decide),
   (stringifyLevel_resolution 8).2.2.1 (by decide)⟩

/-- C5. Formatter shape: for a level in 0..7 with canonical name N, any message
and any context, `formatMsg` succeeds and returns "[N] message" followed by
each context string in order, each preceded by ", ". -/
theorem formatMsg_shape (l : Level) (msg : String) (context : List String)
    (h : 0 ≤ l ∧ l ≤ 7) :
    formatMsg l msg context =
      ("[" ++ canonicalName l ++ "] " ++ msg ++ String.join (context.map fun c => ", " ++ c),
       none) :=
  formatMsg_valid l msg context h

theorem formatMsg_shape_witness :
    formatMsg Debug "M" [] = ("[Debug] M", none) ∧
    formatMsg Debug "M" ["a", "b"] = ("[Debug] M, a, b", none) :=
  ⟨(formatMsg_shape Debug "M" [] (by decide)).trans (by decide),
   (formatMsg_shape Debug "M" ["a", "b"] (by decide)).trans (by decide)⟩

/-- C6. Formatter error propagation: `formatMsg` fails exactly when
`stringifyLevel` fails, that is exactly when the level is outside 0..7; the
error it returns is the one `stringifyLevel` returned, unchanged, and the
string returned with it is empty. -/
theorem formatMsg_error_propagation (l : Level) (msg : String) (context : List String) :
    ((formatMsg l msg context).2 ≠ none ↔ (stringifyLevel l).2 ≠ none) ∧
    ((stringifyLevel l).2 ≠ none ↔ ¬ (0 ≤ l ∧ l ≤ 7)) ∧
    (formatMsg l msg context).2 = (stringifyLevel l).2 ∧
    ((formatMsg l msg context).2 ≠ none → (formatMsg l msg context).1 = "") := by
  by_cases h : validLevel l
  · simp [formatMsg_valid l msg context h, stringifyLevel_valid l h]; exact h
  · simp [formatMsg_invalid l msg context h, stringifyLevel_invalid l h]
    exact fun h0 => not_le.mp fun h7 => h ⟨h0, h7⟩

theorem formatMsg_error_propagation_witness :
    (formatMsg (-1) "m" ["c"]).2 = (stringifyLevel (-1)).2 ∧
    (formatMsg (-1) "m" ["c"]).1 = "" :=
  ⟨(formatMsg_error_propagation (-1) "m" ["c"]).2.2.1,
   (formatMsg_error_propagation (-1) "m" ["c"]).2.2.2 (by decide)⟩

/-- C7. A writer sink rejects an invalid severity atomically: for every level
outside 0..7, every message and context, `Log` on a `StdoutLogger` returns the
UndefinedLevel error and leaves the world, and so the destination, as it was. -/
theorem StdoutLogger_Log_invalid_level {σ : Type} (os : Process σ) (logger : StdoutLogger σ)
    (l : Level) (msg : String) (context : List String) (w : σ) (h : ¬ (0 ≤ l ∧ l ≤ 7)) :
    logger.Log os l msg context w = (some (errors_New "Undefined log level"), w) :=
  StdoutLogger_Log_undefined os logger l msg context w h

theorem StdoutLogger_Log_invalid_level_witness :
    ¬ (0 ≤ (-1 : Level) ∧ (-1 : Level) ≤ 7) ∧
    (StdoutLogger.mk (log_New bufferWriter "" 0)).Log bufferProcess (-1) "" [] "kept" =
      (some (errors_New "Undefined log level"), "kept") :=
  ⟨by decide, StdoutLogger_Log_invalid_level bufferProcess _ (-1) "" [] "kept" (by decide)⟩

/-- C8, the claim as stated fails: with the valid level Debug and a destination
whose `Write` fails with the error W, the write made by the sink fails with W,
yet `Log` on the writer sink returns no error. -/
theorem StdoutLogger_Log_write_error_not_returned :
    (0 ≤ Debug ∧ Debug ≤ 7) ∧
    ((log_New (failingWriter (errors_New "W")) "" 0).Output bufferProcess
      ((formatMsg Debug "m" ["c"]).1 ++ "\n") "").1 = some (errors_New "W") ∧
    ((StdoutLogger.mk (log_New (failingWriter (errors_New "W")) "" 0)).Log
      bufferProcess Debug "m" ["c"] "").1 = none ∧
    ((StdoutLogger.mk (log_New (failingWriter (errors_New "W")) "" 0)).Log
      bufferProcess Debug "m" ["c"] "").1 ≠ some (errors_New "W") := by
  decide

/-- C8, amended. For every valid level, message and context, `Log` on the
writer sink makes one write of the formatted line and returns no error,
whatever that write reports: when the write fails with an error W, the error
is dropped, `Log` does not return W, and the world is the one the failed
write left. -/
theorem StdoutLogger_Log_drops_write_error {σ : Type} (os : Process σ)
    (logger : StdoutLogger σ) (l : Level) (msg : String) (context : List String) (w : σ)
    (h : 0 ≤ l ∧ l ≤ 7) :
    (logger.Log os l msg context w).1 = none ∧
    (logger.Log os l msg context w).2 = (logger.output.out.Write
      (logger.output.formatHeader os w ++ (formatMsg l msg context).1 ++ "\n") w).2 ∧
    ∀ W : GoError, (logger.output.out.Write
        (logger.output.formatHeader os w ++ (formatMsg l msg context).1 ++ "\n") w).1 = some W →
      (logger.Log os l msg context w).1 ≠ some W := by
  rw [StdoutLogger_Log_valid os logger l msg context w h]
  simp

theorem StdoutLogger_Log_drops_write_error_witness :
    (StdoutLogger.Log bufferProcess ⟨log_New (failingWriter (errors_New "W")) "" 0⟩
      Debug "m" ["c"] "").1 ≠ some (errors_New "W") :=
  (StdoutLogger_Log_drops_write_error bufferProcess
    ⟨log_New (failingWriter (errors_New "W")) "" 0⟩ Debug "m" ["c"] ""
    (by decide)).2.2 (errors_New "W") (by decide)

/-- C9. Writer sink success path: for every level in 0..7, message and
context, `Log` on a writer sink returns no error and makes exactly one write
to its destination, of the line header followed by the formatted message and
one newline; the header is empty when the prefix is empty and the flags are
0; on a buffer the record is appended to the contents; and each of the eight
leveled methods returns no error and leaves in the buffer an output that
contains the message and every context string. -/
theorem StdoutLogger_Log_success {σ : Type} (os : Process σ) (logger : StdoutLogger σ)
    (l : Level) (msg : String) (context : List String) (w : σ) (h : 0 ≤ l ∧ l ≤ 7) :
    (formatMsg l msg context).2 = none ∧
    logger.Log os l msg context w =
      (none, (logger.output.out.Write
        (logger.output.formatHeader os w ++ (formatMsg l msg context).1 ++ "\n") w).2) ∧
    (logger.output.pfx = "" → logger.output.flag = 0 →
      logger.output.formatHeader os w = "") ∧
    (∀ (osb : Process String) (p : String) (f : Nat) (b : String),
      (StdoutLogger.mk (log_New bufferWriter p f)).Log osb l msg context b =
        (none, b ++ ((log_New bufferWriter p f).formatHeader osb b ++
          (formatMsg l msg context).1 ++ "\n"))) ∧
    (∀ (osb : Process String) (b : String),
      (StdoutLogger.mk (log_New bufferWriter "" 0)).Log osb l msg context b =
        (none, b ++ (formatMsg l msg context).1 ++ "\n")) ∧
    (∀ (osb : Process String) (p : String) (f : Nat) (b : String),
      ∀ fn ∈ ((StdoutLogger.mk (log_New bufferWriter p f)).asLogger osb).leveled,
        (fn msg context b).1 = none ∧ Contains (fn msg context b).2 msg ∧
        ∀ c ∈ context, Contains (fn msg context b).2 c) := by
  refine ⟨by rw [formatMsg_valid l msg context h], StdoutLogger_Log_valid os logger l msg context w h,
    formatHeader_plain os logger.output w, ?_, ?_, ?_⟩
  · intro osb p f b
    rw [StdoutLogger_Log_valid osb _ l msg context b h]
    rfl
  · intro osb b
    rw [StdoutLogger_Log_valid osb _ l msg context b h,
      formatHeader_plain osb _ b rfl rfl]
    simp [bufferWriter, log_New, String.append_assoc]
  · intro osb p f b fn hfn
    simp only [Logger.leveled, StdoutLogger.asLogger, List.mem_cons, List.mem_singleton,
      List.not_mem_nil, or_false] at hfn
    rcases hfn with rfl | rfl | rfl | rfl | rfl | rfl | rfl | rfl
    all_goals exact buffer_leveled_contains osb p f b _ msg context (by decide)

theorem StdoutLogger_Log_success_witness :
    (StdoutLogger.mk (log_New bufferWriter "" 0)).Log bufferProcess Error "m" ["c1", "c2"] "old\n" =
      (none, "old\n[Error] m, c1, c2\n") :=
  ((StdoutLogger_Log_success bufferProcess ⟨log_New bufferWriter "" 0⟩ Error "m" ["c1", "c2"]
    "old\n" (by decide)).2.1).trans (by decide)

/-- C10. No log line for an invalid severity through the fan-out: for every
level outside 0..7, every message and context, and every logger put together
from no-op sinks, writer sinks and nested calls of `NewLogger`, `Log` leaves
the world, and so every destination, unchanged; when the logger holds a writer
sink, as the default `NewLogger()` does, `Log` returns the UndefinedLevel
error. -/
theorem fanout_Log_invalid_level {σ : Type} (os : Process σ) (parts : List (Assembly σ))
    (l : Level) (msg : String) (context : List String) (w : σ)
    (h : ¬ (0 ≤ l ∧ l ≤ 7)) :
    (((Assembly.fanout parts).build os).Log l msg context w).2 = w ∧
    ((Assembly.fanout parts).hasWriter = true →
      ((Assembly.fanout parts).build os).Log l msg context w =
        (some (errors_New "Undefined log level"), w)) ∧
    (NewLogger os []).Log l msg context w = (some (errors_New "Undefined log level"), w) := by
  refine ⟨?_, ?_, NewLogger_default_invalid os l msg context w h⟩
  · rw [build_invalid os l msg context h]
  · intro hw
    rw [build_invalid os l msg context h, hw]
    rfl

theorem fanout_Log_invalid_level_witness :
    ((Assembly.fanout [Assembly.noop, Assembly.fanout [Assembly.noop,
        Assembly.writer ⟨log_New bufferWriter "" 0⟩], Assembly.noop]).build bufferProcess).Log
      (-1) "m" ["c"] "kept" = (some (errors_New "Undefined log level"), "kept") :=
  (fanout_Log_invalid_level bufferProcess [Assembly.noop, Assembly.fanout [Assembly.noop,
    Assembly.writer ⟨log_New bufferWriter "" 0⟩], Assembly.noop] (-1) "m" ["c"] "kept"
    (by decide)).2.1 (by decide)

/-- C11. Default logger output: for every message x, `Debug(x)` on the logger
returned by `NewLogger()` returns no error and makes one write to standard
output, of a text that contains "[Debug] " followed by x; when x holds no
newline (and the date and time text that package `log` puts before the
message holds none), the text written holds exactly one newline, its last
character: it is one line. -/
theorem NewLogger_default_Debug {σ : Type} (os : Process σ) (x : String) (w : σ) :
    (NewLogger os []).Debug x [] w =
      (none, (os.Stdout.Write
        (os.stamp w log_LstdFlags ++ ("[Debug] " ++ x) ++ "\n") w).2) ∧
    Contains (os.stamp w log_LstdFlags ++ ("[Debug] " ++ x) ++ "\n") ("[Debug] " ++ x) ∧
    (Char.ofNat 10 ∉ (os.stamp w log_LstdFlags).data → Char.ofNat 10 ∉ x.data →
      (os.stamp w log_LstdFlags ++ ("[Debug] " ++ x) ++ "\n").data.count (Char.ofNat 10) = 1 ∧
      (os.stamp w log_LstdFlags ++ ("[Debug] " ++ x) ++ "\n").data.getLast? =
        some (Char.ofNat 10)) := by
  refine ⟨?_, Contains_mid _ _ _, ?_⟩
  · have h := NewLogger_default_valid os Debug x [] w (by decide)
    rw [formatMsg_Debug_plain] at h
    exact h
  · intro hos hx
    have hnl : ("\n" : String).data = [Char.ofNat 10] := by decide
    have htag : List.count (Char.ofNat 10) ("[Debug] " : String).data = 0 := by decide
    have hs : List.count (Char.ofNat 10) (os.stamp w log_LstdFlags).data = 0 :=
      List.count_eq_zero_of_not_mem hos
    have hx0 : List.count (Char.ofNat 10) x.data = 0 := List.count_eq_zero_of_not_mem hx
    constructor
    · simp only [String.data_append, List.count_append, hnl, hs, htag, hx0]
      simp
    · rw [String.data_append, hnl, List.getLast?_concat]

theorem NewLogger_default_Debug_witness :
    (NewLogger bufferProcess []).Debug "x" [] "" = (none, "2009/11/10 23:00:00 [Debug] x\n") ∧
    ("2009/11/10 23:00:00 [Debug] x\n" : String).data.count (Char.ofNat 10) = 1 :=
  ⟨(NewLogger_default_Debug bufferProcess "x" "").1.trans (by decide),
   ((NewLogger_default_Debug bufferProcess "x" "").2.2 (by decide : Char.ofNat 10 ∉ ("2009/11/10 23:00:00 " : String).data)
      (by decide)).1⟩

/-- C12. The convenience methods are fixed-level aliases: on the fan-out
logger, the writer sink and the no-op sink, each of the eight methods
Emergency .. Debug called with a message and a context gives the result and
the world that `Log` gives with the constant of the same name (see C14 for
the values 0..7), the same message and the same context. -/
theorem leveled_methods_are_aliases {σ : Type} (os : Process σ) (l : logger σ)
    (s : StdoutLogger σ) (msg : String) (context : List String) (w : σ) :
    (l.Emergency msg context w = l.Log Emergency msg context w ∧
     l.Alert msg context w = l.Log Alert msg context w ∧
     l.Critical msg context w = l.Log Critical msg context w ∧
     l.Error msg context w = l.Log Error msg context w ∧
     l.Warning msg context w = l.Log Warning msg context w ∧
     l.Notice msg context w = l.Log Notice msg context w ∧
     l.Informational msg context w = l.Log Informational msg context w ∧
     l.Debug msg context w = l.Log Debug msg context w) ∧
    (s.Emergency os msg context w = s.Log os Emergency msg context w ∧
     s.Alert os msg context w = s.Log os Alert msg context w ∧
     s.Critical os msg context w = s.Log os Critical msg context w ∧
     s.Error os msg context w = s.Log os Error msg context w ∧
     s.Warning os msg context w = s.Log os Warning msg context w ∧
     s.Notice os msg context w = s.Log os Notice msg context w ∧
     s.Informational os msg context w = s.Log os Informational msg context w ∧
     s.Debug os msg context w = s.Log os Debug msg context w) ∧
    (NilLogger.Emergency msg context w = NilLogger.Log Emergency msg context w ∧
     NilLogger.Alert msg context w = NilLogger.Log Alert msg context w ∧
     NilLogger.Critical msg context w = NilLogger.Log Critical msg context w ∧
     NilLogger.Error msg context w = NilLogger.Log Error msg context w ∧
     NilLogger.Warning msg context w = NilLogger.Log Warning msg context w ∧
     NilLogger.Notice msg context w = NilLogger.Log Notice msg context w ∧
     NilLogger.Informational msg context w = NilLogger.Log Informational msg context w ∧
     NilLogger.Debug msg context w = NilLogger.Log Debug msg context w) ∧
    (∀ lg : Logger σ, lg = l.asLogger ∨ lg = s.asLogger os ∨ lg = NewNilLogger →
      (lg.leveled.map fun fn => fn msg context w) =
        [Emergency, Alert, Critical, Error, Warning, Notice, Informational, Debug].map
          fun X => lg.Log X msg context w) ∧
    [Emergency, Alert, Critical, Error, Warning, Notice, Informational, Debug] =
      [0, 1, 2, 3, 4, 5, 6, 7] := by
  refine ⟨⟨rfl, rfl, rfl, rfl, rfl, rfl, rfl, rfl⟩, ⟨rfl, rfl, rfl, rfl, rfl, rfl, rfl, rfl⟩,
    ⟨rfl, rfl, rfl, rfl, rfl, rfl, rfl, rfl⟩, ?_, rfl⟩
  intro lg hlg
  rcases hlg with rfl | rfl | rfl <;> rfl

theorem leveled_methods_are_aliases_witness :
    ((StdoutLogger.mk (log_New bufferWriter "" 0)).asLogger bufferProcess).leveled.map
        (fun fn => fn "m" ["c"] "") =
      [Emergency, Alert, Critical, Error, Warning, Notice, Informational, Debug].map
        fun X => ((StdoutLogger.mk (log_New bufferWriter "" 0)).asLogger bufferProcess).Log
          X "m" ["c"] "" :=
  (leveled_methods_are_aliases bufferProcess ⟨[]⟩ ⟨log_New bufferWriter "" 0⟩ "m" ["c"]
    "").2.2.2.1 _ (Or.inr (Or.inl rfl))

/-- C13. The no-op sink: for every level, valid or not, every message and
context, `Log` on a `NilLogger` returns no error and leaves the world as it
was; so does each of the eight leveled methods; and any finite sequence of
calls of its nine methods returns no error at every call and leaves the world,
whatever it holds, unchanged. -/
theorem NilLogger_no_effect {σ : Type} (level : Level) (msg : String) (context : List String)
    (w : σ) (calls : List Invocation) :
    NilLogger.Log level msg context w = (none, w) ∧
    (∀ fn ∈ (NewNilLogger : Logger σ).leveled, fn msg context w = (none, w)) ∧
    (NewNilLogger : Logger σ).run calls w = (calls.map fun _ => none, w) ∧
    (∀ e ∈ ((NewNilLogger : Logger σ).run calls w).1, e = none) := by
  refine ⟨rfl, ?_, NilLogger_run calls w, ?_⟩
  · intro fn hfn
    simp only [Logger.leveled, NewNilLogger, List.mem_cons, List.mem_singleton,
      List.not_mem_nil, or_false] at hfn
    rcases hfn with rfl | rfl | rfl | rfl | rfl | rfl | rfl | rfl <;> rfl
  · intro e he
    rw [NilLogger_run] at he
    simp only [List.mem_map] at he
    obtain ⟨_, _, rfl⟩ := he
    rfl

/-- C14. The severity constants have the values Emergency = 0, Alert = 1,
Critical = 2, Error = 3, Warning = 4, Notice = 5, Informational = 6 and
Debug = 7: they are pairwise distinct and strictly increasing in that order. -/
theorem level_constants :
    (Emergency = 0 ∧ Alert = 1 ∧ Critical = 2 ∧ Error = 3 ∧ Warning = 4 ∧ Notice = 5 ∧
      Informational = 6 ∧ Debug = 7) ∧
    [Emergency, Alert, Critical, Error, Warning, Notice, Informational, Debug].Nodup ∧
    (Emergency < Alert ∧ Alert < Critical ∧ Critical < Error ∧ Error < Warning ∧
      Warning < Notice ∧ Notice < Informational ∧ Informational < Debug) ∧
    [Emergency, Alert, Critical, Error, Warning, Notice, Informational,
      Debug].Pairwise (fun a b => a < b) := by
  decide

/-- C15. Fan-out dispatch composes over concatenation and nesting: `Log` on a
fan-out over xs ++ ys is `Log` on a fan-out over xs, followed, only when that
returned no error, by `Log` on a fan-out over ys, and the first error
otherwise; so for non-empty xs the nested logger
`NewLogger(NewLogger(xs...), ys...)` gives the result and the world of the
flat `NewLogger(xs ++ ys ...)`, and under observation the same record of child
calls. -/
theorem logger_Log_composes {σ : Type} (os : Process σ) (xs ys : List (Logger σ))
    (level : Level) (msg : String) (context : List String) (w : σ) :
    (logger.Log ⟨xs ++ ys⟩ level msg context w =
      match logger.Log ⟨xs⟩ level msg context w with
      | (some err, w1) => (some err, w1)
      | (none, w1) => logger.Log ⟨ys⟩ level msg context w1) ∧
    (xs ≠ [] →
      (NewLogger os ((NewLogger os xs).asLogger :: ys)).Log level msg context w =
        (NewLogger os (xs ++ ys)).Log level msg context w) ∧
    (xs ≠ [] → ∀ (osc : Process (σ × List Call)) (calls : List Call),
      (NewLogger osc ((NewLogger osc (observeFrom 0 xs)).asLogger ::
          observeFrom xs.length ys)).Log level msg context (w, calls) =
        (NewLogger osc (observeFrom 0 (xs ++ ys))).Log level msg context (w, calls)) := by
  refine ⟨logger_Log_concat xs ys level msg context w,
    fun h => nested_eq_flat os xs ys h level msg context w, ?_⟩
  intro h osc calls
  rw [observeFrom_append, Nat.zero_add]
  exact nested_eq_flat osc _ _ (observeFrom_ne_nil 0 xs h) level msg context (w, calls)

theorem logger_Log_composes_witness :
    (NewLogger bufferProcess ((NewLogger bufferProcess
        [NewNilLogger, failingLogger (errors_New "E")]).asLogger :: [NewNilLogger])).Log
        Notice "m" ["c"] "" =
      (NewLogger bufferProcess ([NewNilLogger, failingLogger (errors_New "E")] ++
        [NewNilLogger])).Log Notice "m" ["c"] "" :=
  (logger_Log_composes bufferProcess [NewNilLogger, failingLogger (errors_New "E")]
    [NewNilLogger] Notice "m" ["c"] "").2.1 (by simp)

/-- C16. The loop of pairwise joins of the formatter equals one join: for a
level in 0..7 with name N, `formatMsg` returns the single `strings.Join` of
the list that starts with "[N] message" and continues with the context
strings, with separator ", "; one more context string c at the end adds
", " and c to the result, and the empty string still adds the separator. -/
theorem formatMsg_single_join (l : Level) (msg : String) (context : List String) (c : String)
    (h : 0 ≤ l ∧ l ≤ 7) :
    formatMsg l msg context =
      (strings_Join (("[" ++ canonicalName l ++ "] " ++ msg) :: context) ", ", none) ∧
    (formatMsg l msg (context ++ [c])).1 = (formatMsg l msg context).1 ++ ", " ++ c ∧
    (formatMsg l msg (context ++ [c])).2 = none ∧
    (formatMsg l msg (context ++ [""])).1 = (formatMsg l msg context).1 ++ ", " := by
  have key : ∀ extra : String, (formatMsg l msg (context ++ [extra])).1 =
      (formatMsg l msg context).1 ++ ", " ++ extra := by
    intro extra
    rw [formatMsg_valid l msg _ h, formatMsg_valid l msg _ h]
    simp only [specLine, List.map_append, List.map_cons, List.map_nil, join_append, join_cons]
    simp [String.join, String.append_assoc]
  refine ⟨?_, key c, ?_, ?_⟩
  · rw [formatMsg_valid l msg context h, strings_Join_cons]
    rfl
  · rw [formatMsg_valid l msg _ h]
  · rw [key ""]
    simp

theorem formatMsg_single_join_witness :
    (formatMsg Debug "M" (["a"] ++ [""])).1 = "[Debug] M, a, " :=
  ((formatMsg_single_join Debug "M" ["a"] "" (by decide)).2.2.2).trans (by decide)

/-- C17. Canonical names identify the level: for levels a and b in 0..7, if
`stringifyLevel` returns the same name for both then a = b; and the name of a
valid level is never the empty string. -/
theorem stringifyLevel_injective (a b : Level) (ha : 0 ≤ a ∧ a ≤ 7) (hb : 0 ≤ b ∧ b ≤ 7) :
    ((stringifyLevel a).1 = (stringifyLevel b).1 → a = b) ∧ (stringifyLevel a).1 ≠ "" := by
  obtain ⟨ha0, ha7⟩ := ha
  obtain ⟨hb0, hb7⟩ := hb
  interval_cases a <;> interval_cases b <;> decide

theorem stringifyLevel_injective_witness :
    ((stringifyLevel 3).1 = (stringifyLevel 3).1 → (3 : Level) = 3) ∧
    (stringifyLevel 3).1 ≠ "" :=
  stringifyLevel_injective 3 3 (by decide) (by decide)

/-- C18. The formatted line does not determine the log call: for the valid
level Debug, the message "M" with context ["a, b"], the message "M" with
context ["a", "b"] and the message "M, a" with context ["b"] are three
different calls for which `formatMsg` returns the same string; so there are a
valid level and two different (message, context) pairs with the same line. -/
theorem formatMsg_not_injective :
    (0 ≤ Debug ∧ Debug ≤ 7) ∧
    formatMsg Debug "M" ["a, b"] = ("[Debug] M, a, b", none) ∧
    formatMsg Debug "M" ["a", "b"] = ("[Debug] M, a, b", none) ∧
    formatMsg Debug "M, a" ["b"] = ("[Debug] M, a, b", none) ∧
    (("M", ["a, b"]) : String × List String) ≠ ("M", ["a", "b"]) ∧
    (("M", ["a", "b"]) : String × List String) ≠ ("M, a", ["b"]) ∧
    (("M", ["a, b"]) : String × List String) ≠ ("M, a", ["b"]) ∧
    ∃ (l : Level) (m1 m2 : String) (c1 c2 : List String),
      (0 ≤ l ∧ l ≤ 7) ∧ (m1, c1) ≠ (m2, c2) ∧ (formatMsg l m1 c1).2 = none ∧
      formatMsg l m1 c1 = formatMsg l m2 c2 := by
  refine ⟨by decide, by decide, by decide, by decide, by decide, by decide, by decide,
    Debug, "M", "M, a", ["a", "b"], ["b"], by decide, by decide, by decide, by decide⟩

end logging
